import Mathlib

/-!
# Verification of the rustlings `dev check` pipeline (`src/dev/check.rs`)

This file gives a shallow embedding of the maintainer-facing checker in
`src/dev/check.rs` and proves the specification claims about it.

External effects (file system, subprocesses, the manifest parser, the
command runner, `rustfmt`) are modelled by an explicit environment record
`Env`; each Rust function becomes a Lean function over `Env`.  A Rust
`Result` becomes the `ok`/`error` cases of `Outcome`; a panic (an
`unwrap()` on an `Err`, or a worker thread panicking) becomes the
`panic` case.
-/

set_option autoImplicit false

namespace Rustlings

/-! ## The manifest data model (`ExerciseInfo`, `InfoFile`) -/

/-- One exercise record of the manifest (`info.toml`): the fields of
`ExerciseInfo` in `info_file.rs` that `check.rs` reads. -/
structure ExerciseInfo where
  name : String
  dir : Option String
  test : Bool
  skipCheckUnsolved : Bool
  hint : String
  deriving DecidableEq, Repr

/-- The parsed manifest: format version plus the ordered exercise list. -/
structure InfoFile where
  formatVersion : Nat
  exercises : List ExerciseInfo
  deriving DecidableEq, Repr

/-- Modelled from the spec: the exercise source path is "derived from
`name`/`dir`" (`ExerciseInfo::path` lives in `info_file.rs`, which is not
part of this excerpt): `exercises/[dir/]name.rs`. -/
def ExerciseInfo.path (e : ExerciseInfo) : String :=
  match e.dir with
  | some d => "exercises/" ++ d ++ "/" ++ e.name ++ ".rs"
  | none => "exercises/" ++ e.name ++ ".rs"

/-- Modelled from the spec: the solution path, derived the same way as
`ExerciseInfo.path` but under the solutions root
(`ExerciseInfo::sol_path` lives in `info_file.rs`): `solutions/[dir/]name.rs`. -/
def ExerciseInfo.solPath (e : ExerciseInfo) : String :=
  match e.dir with
  | some d => "solutions/" ++ d ++ "/" ++ e.name ++ ".rs"
  | none => "solutions/" ++ e.name ++ ".rs"

/-- Modelled from the spec: the manifest format version understood by this
checker (`CURRENT_FORMAT_VERSION` in `lib.rs`, not part of this excerpt).
Only its comparison with `InfoFile.formatVersion` matters. -/
def CURRENT_FORMAT_VERSION : Nat := 1

/-! ## Characters and substrings -/

/-- Rust's `char::is_alphanumeric` (Unicode `Alphabetic` or general
category `Nd`/`Nl`/`No`), embedded for the code points up to `U+00FF`
(ASCII and the Latin-1 Supplement); above `U+00FF` this embedding returns
`false`.  Every character this development reasons about lies in the
embedded range, on which the table below is exactly the Unicode one:
ASCII letters and digits, `ª µ º`, the superscripts `² ³ ¹`, the vulgar
fractions `¼ ½ ¾`, and the Latin-1 letters `À–Ö Ø–ö ø–ÿ`. -/
def rustIsAlphanumeric (c : Char) : Bool :=
  let n := c.toNat
  decide ((65 ≤ n ∧ n ≤ 90) ∨ (97 ≤ n ∧ n ≤ 122) ∨ (48 ≤ n ∧ n ≤ 57) ∨
    n = 0xAA ∨ n = 0xB5 ∨ n = 0xBA ∨
    n = 0xB2 ∨ n = 0xB3 ∨ n = 0xB9 ∨
    (0xBC ≤ n ∧ n ≤ 0xBE) ∨
    (0xC0 ≤ n ∧ n ≤ 0xD6) ∨ (0xD8 ≤ n ∧ n ≤ 0xF6) ∨ (0xF8 ≤ n ∧ n ≤ 0xFF))

/-- `forbidden_char` (check.rs line 21): find a char that isn't allowed in
the exercise's `name` or `dir`, i.e. the first char that is neither
alphanumeric (in Rust's Unicode sense) nor an underscore. -/
def forbidden_char (input : String) : Option Char :=
  input.toList.find? (fun c => !rustIsAlphanumeric c && c != '_')

/-- Rust `str::contains` with a string pattern: `pat` occurs as a
contiguous substring of `hay`. -/
def strContains (hay pat : String) : Bool :=
  decide (pat.toList <:+: hay.toList)

/-- Rust `str::trim`: the input with leading and trailing whitespace
removed (embedded for the ASCII whitespace characters, via
`Char.isWhitespace`; every hint this development reasons about is
ASCII). -/
def rustTrim (s : String) : String :=
  String.mk (((s.toList.dropWhile Char.isWhitespace).reverse.dropWhile
    Char.isWhitespace).reverse)

/-! ## Errors

Each constructor stands for one `bail!`/`anyhow!` site of `check.rs`
(or, for the spec-modelled collaborators, for the error the spec
describes), carrying exactly the data interpolated into the message. -/

/-- The error diagnostics produced by the checker. -/
inductive Err where
  /-- `InfoFile::parse` failed (collaborator, carries its message). -/
  | parseError (msg : String)
  /-- Release mode: "Failed to read the file `Cargo.toml`" (line 315). -/
  | failedToReadCargoToml
  /-- "The file `(dev/)Cargo.toml` is outdated. …" (lines 39 and 42);
  `dev` records which of the two messages was produced. -/
  | cargoTomlOutdated (dev : Bool)
  /-- `CmdRunner::build` failed (collaborator, carries its message). -/
  | cmdRunnerError (msg : String)
  /-- "`format_version` < … (supported version)" (line 203). -/
  | formatVersionTooOld
  /-- "`format_version` > … (supported version)" (line 204). -/
  | formatVersionTooNew
  /-- "Found an empty exercise name in `info.toml`" (line 57). -/
  | emptyExerciseName
  /-- "Char `c` in the exercise name `name` is not allowed" (line 60). -/
  | forbiddenCharInName (c : Char) (name : String)
  /-- "The exercise `name` has an empty dir name in `info.toml`" (line 65). -/
  | emptyDir (name : String)
  /-- "Char `c` in the exercise dir `dir` is not allowed" (line 68). -/
  | forbiddenCharInDir (c : Char) (dir : String)
  /-- "The exercise `name` has an empty hint. …" (line 73). -/
  | emptyHint (name : String)
  /-- "The exercise name `name` is duplicated. …" (line 77). -/
  | duplicateName (name : String)
  /-- "Failed to open the file path" (line 85). -/
  | failedToOpenFile (path : String)
  /-- "Failed to read the file path" (line 87). -/
  | failedToReadFile (path : String)
  /-- "The `main` function is missing in the file `path`. …" (line 90). -/
  | missingMainFunction (path : String)
  /-- "Didn't find any `// TODO` comment in the file `path`. …" (line 94). -/
  | missingTodoComment (path : String)
  /-- "The file `path` contains tests … but the exercise `name` has
  `test = false` …" (line 98). -/
  | unexpectedTests (path : String) (name : String)
  /-- "Failed to open the `dir` directory" / "Failed to open the directory
  path" (lines 120 and 139). -/
  | failedToOpenDir (dir : String)
  /-- "Failed to read the `dir` directory" / "Failed to read the directory
  path" (lines 121 and 142). -/
  | failedToReadDir (dir : String)
  /-- "Found the file `path`. Only `README.md` and Rust files related to an
  exercise in `info.toml` are allowed in the `dir` directory" (line 117). -/
  | unexpectedFile (path : String) (dir : String)
  /-- "Found `path` but expected only files. Only one level of exercise
  nesting is allowed" (line 146). -/
  | unexpectedNesting (path : String)
  /-- `CHECK_EXERCISES_UNSOLVED_ERR` (line 195/331). -/
  | exercisesUnsolvedFailed
  /-- "The solution of the exercise name is missing" (line 275). -/
  | solutionMissing (name : String)
  /-- "Running the solution of the exercise name failed with the error
  above" (line 280); `output` is the captured output written to stderr. -/
  | solutionRunFailed (name : String) (output : String)
  /-- A worker returned `SolutionCheck::Err(e)`: the error is propagated
  as-is (line 282). -/
  | solutionErr (msg : String)
  /-- "Panic while trying to run the solution of the exericse name"
  (line 284; the typo "exericse" is the source's). -/
  | solutionPanicked (name : String)
  /-- "Failed to run `rustfmt` on all solution files" (line 293). -/
  | failedToRunRustfmt
  /-- "Some solutions aren't formatted. Run `rustfmt` on them" (line 296). -/
  | solutionsNotFormatted
  deriving DecidableEq, Repr

/-- The diagnostic message of each error, transcribed from the `bail!` /
`anyhow!` format strings of `check.rs` (stderr side channels aside). -/
def Err.message : Err → String
  | .parseError msg => msg
  | .failedToReadCargoToml => "Failed to read the file `Cargo.toml`"
  | .cargoTomlOutdated true => "The file `dev/Cargo.toml` is outdated. Please run `cargo run -- dev update` to update it. Then run `cargo run -- dev check` again"
  | .cargoTomlOutdated false => "The file `Cargo.toml` is outdated. Please run `rustlings dev update` to update it. Then run `rustlings dev check` again"
  | .cmdRunnerError msg => msg
  | .formatVersionTooOld => "`format_version` < 1 (supported version)\nPlease migrate to the latest format version"
  | .formatVersionTooNew => "`format_version` > 1 (supported version)\nTry updating the Rustlings program"
  | .emptyExerciseName => "Found an empty exercise name in `info.toml`"
  | .forbiddenCharInName c name => "Char `" ++ c.toString ++ "` in the exercise name `" ++ name ++ "` is not allowed"
  | .emptyDir name => "The exercise `" ++ name ++ "` has an empty dir name in `info.toml`"
  | .forbiddenCharInDir c dir => "Char `" ++ c.toString ++ "` in the exercise dir `" ++ dir ++ "` is not allowed"
  | .emptyHint name => "The exercise `" ++ name ++ "` has an empty hint. Please provide a hint or at least tell the user why a hint isn't needed for this exercise"
  | .duplicateName name => "The exercise name `" ++ name ++ "` is duplicated. Exercise names must all be unique"
  | .failedToOpenFile path => "Failed to open the file " ++ path
  | .failedToReadFile path => "Failed to read the file " ++ path
  | .missingMainFunction path => "The `main` function is missing in the file `" ++ path ++ "`.\nCreate at least an empty `main` function to avoid language server errors"
  | .missingTodoComment path => "Didn't find any `// TODO` comment in the file `" ++ path ++ "`.\nYou need to have at least one such comment to guide the user."
  | .unexpectedTests path name => "The file `" ++ path ++ "` contains tests annotated with `#[test]` but the exercise `" ++ name ++ "` has `test = false` in the `info.toml` file"
  | .failedToOpenDir dir => "Failed to open the directory " ++ dir
  | .failedToReadDir dir => "Failed to read the directory " ++ dir
  | .unexpectedFile path dir => "Found the file `" ++ path ++ "`. Only `README.md` and Rust files related to an exercise in `info.toml` are allowed in the `" ++ dir ++ "` directory"
  | .unexpectedNesting path => "Found `" ++ path ++ "` but expected only files. Only one level of exercise nesting is allowed"
  | .exercisesUnsolvedFailed => "At least one exercise is already solved or failed to run. See the output above.\nIf this is an intro exercise that is intended to be already solved, add `skip_check_unsolved = true` to the exercise's metadata in the `info.toml` file."
  | .solutionMissing name => "The solution of the exercise " ++ name ++ " is missing"
  | .solutionRunFailed name _ => "Running the solution of the exercise " ++ name ++ " failed with the error above"
  | .solutionErr msg => msg
  | .solutionPanicked name => "Panic while trying to run the solution of the exericse " ++ name
  | .failedToRunRustfmt => "Failed to run `rustfmt` on all solution files"
  | .solutionsNotFormatted => "Some solutions aren't formatted. Run `rustfmt` on them"

/-- The result of running a piece of the checker: a Rust `Ok`, a Rust
`Err` diagnostic, or a panic (an `unwrap()` of an `Err`, or a worker
thread panic surfacing through `thread::scope`). -/
inductive Outcome (α : Type) where
  | ok (a : α)
  | error (e : Err)
  | panic
  deriving DecidableEq, Repr

/-! ## The build descriptor (`Cargo.toml`) and `check_cargo_toml` -/

/-- Modelled from the spec: the build descriptor, with the "known
start/end marker pair delimiting a generated section" already located
(`bins_start_end_ind` lives in `cargo_toml.rs`, which is not part of this
excerpt): `bins` is the text currently between the markers, `before` and
`after` the surrounding text. -/
structure CargoToml where
  before : String
  bins : String
  after : String
  deriving DecidableEq, Repr

/-- Modelled from the spec: `append_bins` (in `cargo_toml.rs`, not part of
this excerpt) "produces the byte sequence expected inside the generated
section of the build descriptor", "one entry per exercise, using a path
prefix appropriate to the invocation context". -/
def append_bins (exerciseInfos : List ExerciseInfo) (pathPre : String) : String :=
  String.join (exerciseInfos.map (fun e =>
    "\n  name = \"" ++ e.name ++ "\"\n  path = \"" ++ pathPre ++ e.path ++ "\"\n"))

/-- `check_cargo_toml` (check.rs lines 26–46): check that the `Cargo.toml`
file is up-to-date, by comparing the current content between the bins
markers with the content regenerated from the manifest.  `dev` is
`cfg!(debug_assertions)`, which only selects the error message. -/
def check_cargo_toml (exerciseInfos : List ExerciseInfo) (currentCargoToml : CargoToml)
    (exercisePathPre : String) (dev : Bool) : Outcome Unit :=
  let old_bins := currentCargoToml.bins
  let new_bins := append_bins exerciseInfos exercisePathPre
  if old_bins ≠ new_bins then .error (.cargoTomlOutdated dev) else .ok ()

/-! ## The effect environment -/

/-- Result of opening-and-reading a file (check.rs lines 82–87 distinguish
a failed `open` from a failed `read_to_string`). -/
inductive FileRead where
  | ok (contents : String)
  | openErr
  | readErr
  deriving DecidableEq, Repr

/-- One entry yielded by a `read_dir` iterator: either the iterator item
itself was an `Err`, or an entry with a file name and the result of its
`file_type()` query (`none` models that query failing, which the code
`unwrap`s). `isFile` is `file_type().is_file()`. -/
inductive EntryRes where
  | readErr
  | ok (fileName : String) (isFile : Option Bool)
  deriving DecidableEq, Repr

/-- Result of `run_exercise(None, cmd_runner)` (collaborator): success
flag or execution error. -/
inductive RunRes where
  | ok (success : Bool)
  | err (msg : String)
  deriving DecidableEq, Repr

/-- Result of `run_solution(Some(&mut output), cmd_runner)` inside a
worker thread: success flag with captured output, execution error, or a
panic of the worker (observed as `handle.join()` returning `Err`). -/
inductive SolRun where
  | ok (success : Bool) (output : String)
  | err (msg : String)
  | panic
  deriving DecidableEq, Repr

/-- The external world as `check.rs` observes it: the manifest parser, the
file system, the command runner and `rustfmt`.  Each field is one
collaborator contract of the spec's §6. -/
structure Env where
  /-- `InfoFile::parse()` (line 304). -/
  parseInfoFile : Except String InfoFile
  /-- `cfg!(debug_assertions)` (lines 38, 306). -/
  debugAssertions : Bool
  /-- `include_str!("../../dev-Cargo.toml")` (line 310), with its bins
  markers located. -/
  devCargoToml : CargoToml
  /-- `fs::read_to_string("Cargo.toml")` (line 315), with its bins markers
  located; `none` is a read failure. -/
  readCargoToml : Option CargoToml
  /-- `CmdRunner::build()` (line 319). -/
  cmdRunnerBuild : Except String Unit
  /-- Opening and reading a file by path (lines 82–87). -/
  readFile : String → FileRead
  /-- `read_dir` by path: `none` is a failure to open the directory. -/
  readDir : String → Option (List EntryRes)
  /-- `Path::new(&sol_path).exists()` (line 235). -/
  pathExists : String → Bool
  /-- `exercise_info.run_exercise(None, cmd_runner)` (line 185). -/
  runExercise : ExerciseInfo → RunRes
  /-- `exercise_info.run_solution(Some(&mut output), cmd_runner)`
  (line 244), including worker panics. -/
  runSolution : ExerciseInfo → SolRun
  /-- `fmt_cmd.status()` (line 292) on the given ordered argument list:
  `none` is a failure to run `rustfmt`, otherwise the success flag. -/
  fmtStatus : List String → Option Bool

/-! ## `check_info_file_exercises` (check.rs lines 49–107)

The loop body is translated as structural recursion over the exercise
list; the `names` hash set becomes the list of names already inserted, and
the returned `paths` hash set the (ordered) list of paths collected so
far.  The scratch `file_buf` is cleared between iterations in the source,
so each iteration checks exactly the current file's contents. -/

/-- The dir checks of lines 63–70. -/
def checkDirOfRecord (name : String) : Option String → Outcome Unit
  | none => .ok ()
  | some dir =>
    if dir = "" then .error (.emptyDir name)
    else
      match forbidden_char dir with
      | some c => .error (.forbiddenCharInDir c dir)
      | none => .ok ()

/-- The content checks of lines 82–99 for one record's file. -/
def checkRecordFile (env : Env) (e : ExerciseInfo) (path : String) : Outcome Unit :=
  match env.readFile path with
  | .openErr => .error (.failedToOpenFile path)
  | .readErr => .error (.failedToReadFile path)
  | .ok fileBuf =>
    if ¬strContains fileBuf "fn main()" then .error (.missingMainFunction path)
    else if ¬strContains fileBuf "// TODO" then .error (.missingTodoComment path)
    else if ¬e.test ∧ strContains fileBuf "#[test]" then .error (.unexpectedTests path e.name)
    else .ok ()

/-- The loop of lines 54–104, with `names` and `paths` as accumulators. -/
def checkInfoFileExercisesAux (env : Env) (names : List String) (paths : List String) :
    List ExerciseInfo → Outcome (List String)
  | [] => .ok paths
  | e :: rest =>
    let name := e.name
    if name = "" then .error .emptyExerciseName
    else
      match forbidden_char name with
      | some c => .error (.forbiddenCharInName c name)
      | none =>
        match checkDirOfRecord name e.dir with
        | .error er => .error er
        | .panic => .panic
        | .ok _ =>
          if rustTrim e.hint = "" then .error (.emptyHint name)
          else if names.contains name then .error (.duplicateName name)
          else
            match checkRecordFile env e e.path with
            | .error er => .error er
            | .panic => .panic
            | .ok _ => checkInfoFileExercisesAux env (name :: names) (paths ++ [e.path]) rest

/-- `check_info_file_exercises` (lines 49–107): check the info of all
exercises and return their paths in a set. -/
def check_info_file_exercises (env : Env) (infoFile : InfoFile) : Outcome (List String) :=
  checkInfoFileExercisesAux env [] [] infoFile.exercises

/-! ## `check_unexpected_files` (check.rs lines 112–161) -/

/-- `entry.path()`: the parent directory joined with the entry's file
name. -/
def entryPath (dir fileName : String) : String := dir ++ "/" ++ fileName

/-- The inner loop of lines 138–157, over the entries of the nested
directory `dirPath`.  The `unexpected_file` closure captures the root
`dir`, so its diagnostic names the root directory.  Note the source
`unwrap`s each entry's `file_type()` (line 145): a failing query is a
panic. -/
def checkSubEntries (rootDir dirPath : String) (allowedRustFiles : List String) :
    List EntryRes → Outcome Unit
  | [] => .ok ()
  | .readErr :: _ => .error (.failedToReadDir dirPath)
  | .ok fileName isFile :: rest =>
    let path := entryPath dirPath fileName
    match isFile with
    | none => .panic
    | some false => .error (.unexpectedNesting path)
    | some true =>
      if fileName = "README.md" then checkSubEntries rootDir dirPath allowedRustFiles rest
      else if ¬allowedRustFiles.contains path then .error (.unexpectedFile path rootDir)
      else checkSubEntries rootDir dirPath allowedRustFiles rest

/-- The outer loop of lines 120–158, over the entries of the root `dir`.
Again `file_type()` is `unwrap`ed (line 123). -/
def checkRootEntries (env : Env) (dir : String) (allowedRustFiles : List String) :
    List EntryRes → Outcome Unit
  | [] => .ok ()
  | .readErr :: _ => .error (.failedToReadDir dir)
  | .ok fileName isFile :: rest =>
    match isFile with
    | none => .panic
    | some true =>
      let path := entryPath dir fileName
      if fileName = "README.md" then checkRootEntries env dir allowedRustFiles rest
      else if ¬allowedRustFiles.contains path then .error (.unexpectedFile path dir)
      else checkRootEntries env dir allowedRustFiles rest
    | some false =>
      let dirPath := entryPath dir fileName
      match env.readDir dirPath with
      | none => .error (.failedToOpenDir dirPath)
      | some subEntries =>
        match checkSubEntries dir dirPath allowedRustFiles subEntries with
        | .ok _ => checkRootEntries env dir allowedRustFiles rest
        | r => r

/-- `check_unexpected_files` (lines 112–161): check `dir` for unexpected
files.  Only Rust files in `allowed_rust_files` and `README.md` files are
allowed; only one level of directory nesting is allowed. -/
def check_unexpected_files (env : Env) (dir : String) (allowedRustFiles : List String) :
    Outcome Unit :=
  match env.readDir dir with
  | none => .error (.failedToOpenDir dir)
  | some entries => checkRootEntries env dir allowedRustFiles entries

/-! ## `check_exercises_unsolved` (check.rs lines 163–199)

Each non-skipped exercise gets a worker thread; a worker whose run
reports `Ok(true)` or `Err(_)` calls the `error` closure, which writes a
diagnostic to stderr and stores `true` into the shared `error_occurred`
flag.  All workers run to completion (`thread::scope` joins every one);
the phase then fails iff the flag was set.  The set of `error` calls is
modelled as the list of failures below, the flag's final value as that
list being nonempty. -/

/-- The diagnostic a worker records for its exercise (lines 185–189). -/
inductive UnsolvedFailure where
  /-- `Ok(true)`: "Already solved!" for this exercise. -/
  | alreadySolved (name : String)
  /-- `Err(e)`: the execution error's message for this exercise. -/
  | runError (name : String) (msg : String)
  deriving DecidableEq, Repr

/-- All failures recorded by the workers, across the whole exercise list
(every worker runs to completion, so a failure never hides a later one).
Exercises with `skip_check_unsolved = true` are skipped before a worker
is even spawned (lines 171–173). -/
def unsolvedFailures (env : Env) (exercises : List ExerciseInfo) : List UnsolvedFailure :=
  exercises.filterMap (fun e =>
    if e.skipCheckUnsolved then none
    else
      match env.runExercise e with
      | .ok true => some (.alreadySolved e.name)
      | .ok false => none
      | .err msg => some (.runError e.name msg))

/-- `check_exercises_unsolved` (lines 163–199). -/
def check_exercises_unsolved (env : Env) (infoFile : InfoFile) : Outcome Unit :=
  if (unsolvedFailures env infoFile.exercises).isEmpty then .ok ()
  else .error .exercisesUnsolvedFailed

/-! ## `check_solutions` (check.rs lines 214–301) -/

/-- The `SolutionCheck` enum (lines 214–220). -/
inductive SolutionCheck where
  | success (solPath : String)
  | missingRequired
  | missingOptional
  | runFailure (output : String)
  | err (msg : String)
  deriving DecidableEq, Repr

/-- The worker closure spawned for one exercise (lines 233–249); `none`
models the worker panicking, observed as `handle.join()` returning
`Err`. -/
def solutionCheckOf (requireSolutions : Bool) (env : Env) (e : ExerciseInfo) :
    Option SolutionCheck :=
  if ¬env.pathExists e.solPath then
    if requireSolutions then some .missingRequired else some .missingOptional
  else
    match env.runSolution e with
    | .ok true _ => some (.success e.solPath)
    | .ok false output => some (.runFailure output)
    | .err msg => some (.err msg)
    | .panic => none

/-- The worker spawned for `e` panicked: its join returns `Err` when
joined manually, and `thread::scope` re-raises the panic when the handle
is left to be joined automatically. -/
def workerPanicked (requireSolutions : Bool) (env : Env) (e : ExerciseInfo) : Bool :=
  (solutionCheckOf requireSolutions env e).isNone

/-- The join loop of lines 263–287: handles are joined in manifest order;
a `Success` contributes its solution path (to the `rustfmt` argument list
and the `sol_paths` set, both modelled by the returned ordered list), a
`MissingOptional` contributes nothing, and the first `MissingRequired`,
`RunFailure`, `Err` or joined panic aborts with its diagnostic.  The
second component is the list of records whose handles were left unjoined
by the early abort (empty when the loop completes): `thread::scope`
joins those automatically when the closure returns. -/
def solutionsJoin (requireSolutions : Bool) (env : Env) (solPaths : List String) :
    List ExerciseInfo → Outcome (List String) × List ExerciseInfo
  | [] => (.ok solPaths, [])
  | e :: rest =>
    match solutionCheckOf requireSolutions env e with
    | some (.success p) => solutionsJoin requireSolutions env (solPaths ++ [p]) rest
    | some .missingRequired => (.error (.solutionMissing e.name), rest)
    | some .missingOptional => solutionsJoin requireSolutions env solPaths rest
    | some (.runFailure output) => (.error (.solutionRunFailed e.name output), rest)
    | some (.err msg) => (.error (.solutionErr msg), rest)
    | none => (.error (.solutionPanicked e.name), rest)

/-- Lines 289–299 after a successful join: a thread checking the
`solutions` directory shape runs concurrently with the `rustfmt`
invocation over the collected paths.  A panic of that thread wins (the
`unwrap` on line 299, or `thread::scope` itself, re-raises it even when
the closure already bailed); otherwise a `rustfmt` failure is reported
first, and finally the thread's own result is returned. -/
def solutionsEpilogue (env : Env) (solPaths : List String) : Outcome Unit :=
  match check_unexpected_files env "solutions" solPaths with
  | .panic => .panic
  | dirRes =>
    match env.fmtStatus solPaths with
    | none => .error .failedToRunRustfmt
    | some false => .error .solutionsNotFormatted
    | some true => dirRes

/-- `check_solutions` (lines 222–301).  When the join loop bails early,
the remaining worker handles are dropped unjoined and `thread::scope`
joins them automatically on closure exit; if any of those workers
panicked, `thread::scope` re-raises the panic ("a scoped thread
panicked"), discarding the closure's `Err` — otherwise the closure's
diagnostic is the result.  A completed join leaves no unjoined worker
and proceeds to the `rustfmt` + directory-shape epilogue. -/
def check_solutions (requireSolutions : Bool) (env : Env) (infoFile : InfoFile) :
    Outcome Unit :=
  match solutionsJoin requireSolutions env [] infoFile.exercises with
  | (.ok solPaths, _) => solutionsEpilogue env solPaths
  | (.error er, rest) =>
    if rest.any (workerPanicked requireSolutions env) then .panic else .error er
  | (.panic, _) => .panic

/-! ## `check_exercises` and `check` (check.rs lines 201–212, 303–326) -/

/-- The format-version check of lines 202–206. -/
def checkFormatVersion (infoFile : InfoFile) : Outcome Unit :=
  match compare infoFile.formatVersion CURRENT_FORMAT_VERSION with
  | .lt => .error .formatVersionTooOld
  | .gt => .error .formatVersionTooNew
  | .eq => .ok ()

/-- `check_exercises` (lines 201–212). -/
def check_exercises (env : Env) (infoFile : InfoFile) : Outcome Unit :=
  match checkFormatVersion infoFile with
  | .ok _ =>
    (match check_info_file_exercises env infoFile with
     | .ok infoFilePaths =>
       (match check_unexpected_files env "exercises" infoFilePaths with
        | .ok _ => check_exercises_unsolved env infoFile
        | r => r)
     | .error er => .error er
     | .panic => .panic)
  | r => r

/-- The build-descriptor phase of lines 306–317: in debug mode the
embedded `dev-Cargo.toml` is compared with path prefix `"../"`; in
release mode `Cargo.toml` is read from disk (failing with a read error)
and compared with the empty prefix. -/
def cargoTomlPhase (env : Env) (exerciseInfos : List ExerciseInfo) : Outcome Unit :=
  if env.debugAssertions then
    check_cargo_toml exerciseInfos env.devCargoToml "../" true
  else
    match env.readCargoToml with
    | none => .error .failedToReadCargoToml
    | some currentCargoToml => check_cargo_toml exerciseInfos currentCargoToml "" false

/-- `check` (lines 303–326): the public entry point. -/
def check (requireSolutions : Bool) (env : Env) : Outcome Unit :=
  match env.parseInfoFile with
  | .error msg => .error (.parseError msg)
  | .ok infoFile =>
    match cargoTomlPhase env infoFile.exercises with
    | .ok _ =>
      (match env.cmdRunnerBuild with
       | .error msg => .error (.cmdRunnerError msg)
       | .ok _ =>
         (match check_exercises env infoFile with
          | .ok _ => check_solutions requireSolutions env infoFile
          | r => r))
    | r => r

/-! ## Spec-side definitions

These follow the words of the specification (not the source); they exist
to be compared with the source-derived definitions above. -/

/-- The ASCII character class `[A-Za-z0-9_]` named by the spec's naming
rule. -/
def asciiAlnumUnderscore (c : Char) : Bool :=
  let n := c.toNat
  decide ((65 ≤ n ∧ n ≤ 90) ∨ (97 ≤ n ∧ n ≤ 122) ∨ (48 ≤ n ∧ n ≤ 57) ∨ n = 95)

/-- Fail-fast sequencing of two steps: an error or panic of the first
step aborts, a success feeds the second. -/
def Outcome.andThen {α β : Type} (o : Outcome α) (f : α → Outcome β) : Outcome β :=
  match o with
  | .ok a => f a
  | .error e => .error e
  | .panic => .panic

/-- Phase 1 of the spec's orchestration: parse the manifest, failing fast
on a parse error. -/
def parsePhase (env : Env) : Outcome InfoFile :=
  match env.parseInfoFile with
  | .ok infoFile => .ok infoFile
  | .error msg => .error (.parseError msg)

/-- Follows the spec's words (§4.7): the seven phases in their stated
order — parse, build-descriptor check, format version, naming + content,
directory shape, unsolved-state, solutions — each failing fast. -/
def specOrchestration (requireSolutions : Bool) (env : Env) : Outcome Unit :=
  (parsePhase env).andThen fun infoFile =>
  (cargoTomlPhase env infoFile.exercises).andThen fun _ =>
  (checkFormatVersion infoFile).andThen fun _ =>
  (check_info_file_exercises env infoFile).andThen fun infoFilePaths =>
  (check_unexpected_files env "exercises" infoFilePaths).andThen fun _ =>
  (check_exercises_unsolved env infoFile).andThen fun _ =>
  check_solutions requireSolutions env infoFile

/-! ## Helper lemmas -/

/-- Characters are determined by their code point. -/
theorem char_eq_iff_toNat (c d : Char) : c = d ↔ c.toNat = d.toNat := by
  constructor
  · rintro rfl; rfl
  · intro h
    have hc := Char.ofNat_toNat c
    have hd := Char.ofNat_toNat d
    rw [← hc, ← hd, h]

/-- On ASCII characters, Rust's accepted class (Unicode alphanumeric or
underscore) is exactly the spec's ASCII class `[A-Za-z0-9_]`. -/
theorem ascii_accept_eq (c : Char) (h : c.toNat < 128) :
    (rustIsAlphanumeric c = true ∨ c = '_') ↔ asciiAlnumUnderscore c = true := by
  rw [char_eq_iff_toNat]
  have h95 : ('_').toNat = 95 := rfl
  rw [h95]
  simp only [rustIsAlphanumeric, asciiAlnumUnderscore, decide_eq_true_eq]
  omega

/-- `forbidden_char` returns `none` exactly when every character of the
input is accepted. -/
theorem forbidden_char_eq_none_iff (s : String) :
    forbidden_char s = none ↔ ∀ c ∈ s.toList, rustIsAlphanumeric c = true ∨ c = '_' := by
  rw [forbidden_char, List.find?_eq_none]
  constructor
  · intro h c hc
    have := h c hc
    simp only [Bool.and_eq_true, Bool.not_eq_true', bne_iff_ne, ne_eq, not_and, not_not] at this
    by_cases hr : rustIsAlphanumeric c = true
    · exact .inl hr
    · exact .inr (this (by simpa using hr))
  · intro h c hc
    rcases h c hc with hr | hr <;>
      simp [hr]

/-! ## Claim C1 -/

/-- C1, counterexample: the claim says any value containing a character
outside the ASCII class `[A-Za-z0-9_]` is rejected, but the name `"é"`
consists of one such character and is nevertheless accepted
(`forbidden_char` finds nothing, because Rust's `char::is_alphanumeric`
is a Unicode test, not an ASCII one). -/
theorem c1_ascii_charset_claim_false :
    forbidden_char "é" = none ∧ "é".toList.all asciiAlnumUnderscore = false :=
  ⟨rfl, rfl⟩

/-- C1 (amended): the naming validator rejects a `name` or `dir` exactly
when it contains a character that is neither Unicode-alphanumeric (Rust's
`char::is_alphanumeric`) nor an underscore; restricted to ASCII input
this coincides with the claimed class `[A-Za-z0-9_]`, but non-ASCII
alphanumeric characters such as `é` are also accepted. -/
theorem c1_forbidden_char_charset (s : String) :
    (forbidden_char s = none ↔ ∀ c ∈ s.toList, rustIsAlphanumeric c = true ∨ c = '_')
    ∧ ((∀ c ∈ s.toList, c.toNat < 128) →
        (forbidden_char s = none ↔ s.toList.all asciiAlnumUnderscore = true)) := by
  refine ⟨forbidden_char_eq_none_iff s, fun hascii => ?_⟩
  rw [forbidden_char_eq_none_iff, List.all_eq_true]
  exact forall₂_congr fun c hc => ascii_accept_eq c (hascii c hc)

/-- C1 witness: the amended theorem applied to the concrete all-ASCII
name `"foo_bar1"`, which is accepted. -/
theorem c1_forbidden_char_charset_witness :
    forbidden_char "foo_bar1" = none :=
  ((c1_forbidden_char_charset "foo_bar1").2 (by decide)).mpr (by decide)

/-! ## Claim C7 -/

/-- C7: the build-descriptor consistency check succeeds iff the bytes
currently between the markers equal the bytes regenerated from the
manifest; it fails with the out-of-date diagnostic when they differ; and
re-comparing against content just regenerated from the same manifest
always passes (idempotent round-trip). -/
theorem c7_check_cargo_toml_roundtrip (exerciseInfos : List ExerciseInfo)
    (currentCargoToml : CargoToml) (pathPre : String) (dev : Bool) :
    (check_cargo_toml exerciseInfos currentCargoToml pathPre dev = .ok () ↔
      currentCargoToml.bins = append_bins exerciseInfos pathPre)
    ∧ (currentCargoToml.bins ≠ append_bins exerciseInfos pathPre →
        check_cargo_toml exerciseInfos currentCargoToml pathPre dev =
          .error (.cargoTomlOutdated dev))
    ∧ check_cargo_toml exerciseInfos
        { currentCargoToml with bins := append_bins exerciseInfos pathPre } pathPre dev =
        .ok () := by
  refine ⟨?_, fun h => ?_, ?_⟩
  · simp [check_cargo_toml]
  · simp [check_cargo_toml, h]
  · simp [check_cargo_toml]

/-- C7 witness: the round-trip theorem applied to a concrete manifest and
descriptor whose section content differs from the regenerated one. -/
theorem c7_check_cargo_toml_roundtrip_witness :
    check_cargo_toml [] { before := "a", bins := "stale", after := "b" } "" true =
      .error (.cargoTomlOutdated true) :=
  (c7_check_cargo_toml_roundtrip [] { before := "a", bins := "stale", after := "b" } "" true).2.1
    (by decide)

/-! ## Claim C3 -/

/-- Skipped exercises are not consulted at all when collecting the
unsolved-phase failures. -/
theorem unsolvedFailures_filter_skip (env : Env) (l : List ExerciseInfo) :
    unsolvedFailures env (l.filter (fun e => !e.skipCheckUnsolved)) = unsolvedFailures env l := by
  induction l with
  | nil => rfl
  | cons e t ih =>
    by_cases h : e.skipCheckUnsolved <;>
      simp [unsolvedFailures, List.filter_cons, h, List.filterMap_cons] at ih ⊢ <;>
      rw [← ih]

/-- C3: in the unsolved-state phase, every non-skipped exercise whose
runner reports success records an already-solved failure; exercises with
`skip_check_unsolved = true` are skipped entirely (dropping them from the
list changes nothing, so they contribute no failure whatever their runner
does); the recorded failures accumulate over the whole list (workers are
all joined, a failure never suppresses later workers); and the phase
fails exactly when at least one failure was recorded. -/
theorem c3_unsolved_phase (env : Env) (infoFile : InfoFile) :
    (∀ e ∈ infoFile.exercises, e.skipCheckUnsolved = false → env.runExercise e = .ok true →
      UnsolvedFailure.alreadySolved e.name ∈ unsolvedFailures env infoFile.exercises)
    ∧ unsolvedFailures env (infoFile.exercises.filter (fun e => !e.skipCheckUnsolved)) =
        unsolvedFailures env infoFile.exercises
    ∧ (check_exercises_unsolved env infoFile = .ok () ↔
        unsolvedFailures env infoFile.exercises = [])
    ∧ (unsolvedFailures env infoFile.exercises ≠ [] →
        check_exercises_unsolved env infoFile = .error .exercisesUnsolvedFailed) := by
  refine ⟨fun e he hskip hrun => ?_, unsolvedFailures_filter_skip env _, ?_, fun h => ?_⟩
  · rw [unsolvedFailures, List.mem_filterMap]
    exact ⟨e, he, by simp [hskip, hrun]⟩
  · simp [check_exercises_unsolved, List.isEmpty_iff]
  · simp [check_exercises_unsolved, List.isEmpty_iff, h]

/-! ## A concrete world for witnesses

A two-exercise manifest mirroring the spec's end-to-end scenario
(`intro1` is pre-solved and skipped, `vars1` is a normal exercise), with
an environment in which every phase passes. -/

def eIntro : ExerciseInfo :=
  { name := "intro1", dir := none, test := false, skipCheckUnsolved := true, hint := "Run it" }

def eVars : ExerciseInfo :=
  { name := "vars1", dir := some "vars", test := true, skipCheckUnsolved := false,
    hint := "Declare it" }

def infoGood : InfoFile := { formatVersion := 1, exercises := [eIntro, eVars] }

def introText : String := "fn main() // TODO "

def varsText : String := "fn main() // TODO #[test]"

def envGood : Env where
  parseInfoFile := .ok infoGood
  debugAssertions := true
  devCargoToml :=
    { before := "[package]\n", bins := append_bins infoGood.exercises "../", after := "\n" }
  readCargoToml := none
  cmdRunnerBuild := .ok ()
  readFile := fun p =>
    if p = "exercises/intro1.rs" then .ok introText
    else if p = "exercises/vars/vars1.rs" then .ok varsText
    else .openErr
  readDir := fun d =>
    if d = "exercises" then
      some [.ok "README.md" (some true), .ok "intro1.rs" (some true), .ok "vars" (some false)]
    else if d = "exercises/vars" then some [.ok "vars1.rs" (some true)]
    else if d = "solutions" then
      some [.ok "README.md" (some true), .ok "intro1.rs" (some true), .ok "vars" (some false)]
    else if d = "solutions/vars" then some [.ok "vars1.rs" (some true)]
    else none
  pathExists := fun p => p == "solutions/intro1.rs" || p == "solutions/vars/vars1.rs"
  runExercise := fun e => if e.name = "intro1" then .ok true else .ok false
  runSolution := fun _ => .ok true "ok"
  fmtStatus := fun _ => some true

/-- The spec's second end-to-end scenario: `vars1`'s exercise already
succeeds (and is not skipped). -/
def envSolved : Env := { envGood with runExercise := fun _ => .ok true }

/-- The all-good world with `vars1`'s solution file absent. -/
def envMissing : Env :=
  { envGood with pathExists := fun p => p == "solutions/intro1.rs" }

/-- The all-good world where running `vars1`'s solution panics. -/
def envPanic : Env :=
  { envGood with
    runSolution := fun e => if e.name = "vars1" then .panic else .ok true "ok" }

/-- The all-good world where `vars1`'s solution runs and fails. -/
def envRunFail : Env :=
  { envGood with
    runSolution := fun e => if e.name = "vars1" then .ok false "boom" else .ok true "ok" }

/-- In the all-good world the whole check passes. -/
theorem envGood_check_ok : check true envGood = .ok () := by decide

/-- C3 witness: in the world where `vars1` already runs successfully, the
theorem yields its recorded already-solved failure and the failing
phase. -/
theorem c3_unsolved_phase_witness :
    UnsolvedFailure.alreadySolved eVars.name ∈ unsolvedFailures envSolved infoGood.exercises ∧
      check_exercises_unsolved envSolved infoGood = .error .exercisesUnsolvedFailed :=
  ⟨(c3_unsolved_phase envSolved infoGood).1 eVars (by decide) (by decide) (by decide),
   (c3_unsolved_phase envSolved infoGood).2.2.2 (by decide)⟩

/-! ## The solution phase: join-order lemmas -/

/-- A worker whose join neither fails the phase nor propagates an error:
it returned `Success` or `MissingOptional`. -/
def workerBenign (requireSolutions : Bool) (env : Env) (e : ExerciseInfo) : Bool :=
  match solutionCheckOf requireSolutions env e with
  | some (.success _) => true
  | some .missingOptional => true
  | _ => false

/-- The solution paths contributed by the successful workers, in manifest
order (the `rustfmt` argument list and the `sol_paths` set). -/
def successPaths (requireSolutions : Bool) (env : Env) (l : List ExerciseInfo) : List String :=
  l.filterMap (fun e =>
    match solutionCheckOf requireSolutions env e with
    | some (.success p) => some p
    | _ => none)

/-- Joining a benign front only accumulates its success paths. -/
theorem solutionsJoin_benign_front (requireSolutions : Bool) (env : Env)
    (pre rest : List ExerciseInfo) (h : ∀ e ∈ pre, workerBenign requireSolutions env e = true)
    (acc : List String) :
    solutionsJoin requireSolutions env acc (pre ++ rest) =
      solutionsJoin requireSolutions env
        (acc ++ successPaths requireSolutions env pre) rest := by
  induction pre generalizing acc with
  | nil => simp [successPaths]
  | cons f t ih =>
    have hf := h f (by simp)
    have ht : ∀ e ∈ t, workerBenign requireSolutions env e = true :=
      fun e he => h e (by simp [he])
    rw [List.cons_append]
    unfold workerBenign at hf
    rcases hsc : solutionCheckOf requireSolutions env f with _ | sc
    · rw [hsc] at hf; simp at hf
    · rw [hsc] at hf
      cases sc with
      | success p =>
        simp only [solutionsJoin, hsc]
        rw [ih ht]
        simp [successPaths, List.filterMap_cons, hsc]
      | missingRequired => simp at hf
      | missingOptional =>
        simp only [solutionsJoin, hsc]
        rw [ih ht]
        simp [successPaths, List.filterMap_cons, hsc]
      | runFailure output => simp at hf
      | err msg => simp at hf

/-- A worker that returned `MissingOptional` can be dropped from the
manifest: the join result is unchanged, and because the dropped worker
did not panic, the automatically joined remainder contains a panicked
worker in the one manifest exactly when it does in the other. -/
theorem solutionsJoin_skip_missingOptional (requireSolutions : Bool) (env : Env)
    (e : ExerciseInfo) (he : solutionCheckOf requireSolutions env e = some .missingOptional)
    (pre post : List ExerciseInfo) (acc : List String) :
    (solutionsJoin requireSolutions env acc (pre ++ e :: post)).1 =
      (solutionsJoin requireSolutions env acc (pre ++ post)).1
    ∧ (solutionsJoin requireSolutions env acc (pre ++ e :: post)).2.any
          (workerPanicked requireSolutions env) =
        (solutionsJoin requireSolutions env acc (pre ++ post)).2.any
          (workerPanicked requireSolutions env) := by
  have hep : workerPanicked requireSolutions env e = false := by
    simp [workerPanicked, he]
  induction pre generalizing acc with
  | nil =>
    rw [List.nil_append, List.nil_append]
    simp [solutionsJoin, he]
  | cons f t ih =>
    rw [List.cons_append, List.cons_append, solutionsJoin, solutionsJoin]
    rcases solutionCheckOf requireSolutions env f with _ | sc
    · exact ⟨rfl, by simp [hep]⟩
    · cases sc with
      | success p => exact ih _
      | missingRequired => exact ⟨rfl, by simp [hep]⟩
      | missingOptional => exact ih _
      | runFailure output => exact ⟨rfl, by simp [hep]⟩
      | err msg => exact ⟨rfl, by simp [hep]⟩

/-! ## Claim C4 -/

/-- C4: a record whose solution file does not exist gets worker outcome
`MissingRequired` when solutions are required and `MissingOptional` when
they are not; in the required case the phase fails with the
missing-solution diagnostic naming that record (as soon as the records
joined before it are benign and none of the workers left unjoined by the
early abort panicked — a panicking unjoined worker would make
`thread::scope` re-panic and discard the diagnostic); in the optional
case the record can be dropped from the manifest without changing the
phase's result at all — in particular it fails nothing and contributes
no path to the downstream `rustfmt` and directory-shape checks. -/
theorem c4_missing_solution (env : Env) (e : ExerciseInfo)
    (h : env.pathExists e.solPath = false) :
    solutionCheckOf true env e = some .missingRequired
    ∧ solutionCheckOf false env e = some .missingOptional
    ∧ (∀ (v : Nat) (pre post : List ExerciseInfo),
        (∀ f ∈ pre, workerBenign true env f = true) →
        (∀ f ∈ post, workerPanicked true env f = false) →
        check_solutions true env { formatVersion := v, exercises := pre ++ e :: post } =
          .error (.solutionMissing e.name))
    ∧ (∀ (v : Nat) (pre post : List ExerciseInfo),
        check_solutions false env { formatVersion := v, exercises := pre ++ e :: post } =
          check_solutions false env { formatVersion := v, exercises := pre ++ post }) := by
  have h1 : solutionCheckOf true env e = some .missingRequired := by
    simp [solutionCheckOf, h]
  have h2 : solutionCheckOf false env e = some .missingOptional := by
    simp [solutionCheckOf, h]
  refine ⟨h1, h2, fun v pre post hpre hpost => ?_, fun v pre post => ?_⟩
  · have hjoin : solutionsJoin true env [] (pre ++ e :: post) =
        (.error (.solutionMissing e.name), post) := by
      rw [solutionsJoin_benign_front true env pre (e :: post) hpre []]
      rw [solutionsJoin, h1]
    have hany : post.any (workerPanicked true env) = false := by
      rw [List.any_eq_false]
      intro f hf
      simp [hpost f hf]
    simp [check_solutions, hjoin, hany]
  · have hsk := solutionsJoin_skip_missingOptional false env e h2 pre post []
    rcases hL : solutionsJoin false env [] (pre ++ e :: post) with ⟨o1, r1⟩
    rcases hR : solutionsJoin false env [] (pre ++ post) with ⟨o2, r2⟩
    rw [hL, hR] at hsk
    obtain ⟨ho, hr⟩ := hsk
    simp only at ho hr
    subst ho
    cases o1 with
    | ok solPaths => simp [check_solutions, hL, hR]
    | error er => simp [check_solutions, hL, hR, hr]
    | panic => simp [check_solutions, hL, hR]

/-- C4 witness: in the all-good world with `vars1`'s solution file
removed, the required run fails naming `vars1` and the optional run
behaves as if `vars1` were not in the manifest. -/
theorem c4_missing_solution_witness :
    check_solutions true envMissing { formatVersion := 1, exercises := [eIntro] ++ eVars :: [] } =
      .error (.solutionMissing eVars.name)
    ∧ check_solutions false envMissing
        { formatVersion := 1, exercises := [eIntro] ++ eVars :: [] } =
      check_solutions false envMissing { formatVersion := 1, exercises := [eIntro] ++ [] } :=
  ⟨(c4_missing_solution envMissing eVars (by decide)).2.2.1 1 [eIntro] [] (by decide)
      (by decide),
   (c4_missing_solution envMissing eVars (by decide)).2.2.2 1 [eIntro] []⟩

/-! ## Claim C9 -/

/-- Two appends whose left parts start with different characters are
different strings. -/
theorem append_ne_of_head (a b n m : String) (ha : a.data.head? = some 'P')
    (hb : b.data.head? = some 'R') : a ++ n ≠ b ++ m := by
  intro hteq
  have hd := congrArg String.data hteq
  rw [String.data_append, String.data_append] at hd
  have h1 := congrArg List.head? hd
  rw [List.head?_append, List.head?_append, ha, hb] at h1
  simp at h1

/-- C9: a solution worker that panics and is joined yields the internal
"Panic while trying to run …" diagnostic naming the exercise, while a
solution that merely executes and fails yields the "Running the solution
… failed" diagnostic carrying the captured output (in both cases
provided the records joined before it are benign and no worker left
unjoined by the abort panicked — such a worker would make
`thread::scope` re-panic and discard the diagnostic); both fail the
phase, and the two diagnostics differ both as values and as message
texts. -/
theorem c9_solution_panic_distinct (env : Env) (e : ExerciseInfo)
    (hex : env.pathExists e.solPath = true) :
    (∀ (requireSolutions : Bool) (v : Nat) (pre post : List ExerciseInfo),
      (∀ f ∈ pre, workerBenign requireSolutions env f = true) →
      (∀ f ∈ post, workerPanicked requireSolutions env f = false) →
      env.runSolution e = .panic →
      check_solutions requireSolutions env { formatVersion := v, exercises := pre ++ e :: post } =
        .error (.solutionPanicked e.name))
    ∧ (∀ (requireSolutions : Bool) (v : Nat) (pre post : List ExerciseInfo) (output : String),
        (∀ f ∈ pre, workerBenign requireSolutions env f = true) →
        (∀ f ∈ post, workerPanicked requireSolutions env f = false) →
        env.runSolution e = .ok false output →
        check_solutions requireSolutions env
            { formatVersion := v, exercises := pre ++ e :: post } =
          .error (.solutionRunFailed e.name output))
    ∧ (∀ (n output : String),
        Err.solutionPanicked n ≠ Err.solutionRunFailed n output
        ∧ (Err.solutionPanicked n).message ≠ (Err.solutionRunFailed n output).message) := by
  refine ⟨fun rs v pre post hpre hpost hrun => ?_,
    fun rs v pre post output hpre hpost hrun => ?_, fun n output => ⟨by simp, ?_⟩⟩
  · have hsc : solutionCheckOf rs env e = none := by
      simp [solutionCheckOf, hex, hrun]
    have hjoin : solutionsJoin rs env [] (pre ++ e :: post) =
        (.error (.solutionPanicked e.name), post) := by
      rw [solutionsJoin_benign_front rs env pre (e :: post) hpre []]
      rw [solutionsJoin, hsc]
    have hany : post.any (workerPanicked rs env) = false := by
      rw [List.any_eq_false]
      intro f hf
      simp [hpost f hf]
    simp [check_solutions, hjoin, hany]
  · have hsc : solutionCheckOf rs env e = some (.runFailure output) := by
      simp [solutionCheckOf, hex, hrun]
    have hjoin : solutionsJoin rs env [] (pre ++ e :: post) =
        (.error (.solutionRunFailed e.name output), post) := by
      rw [solutionsJoin_benign_front rs env pre (e :: post) hpre []]
      rw [solutionsJoin, hsc]
    have hany : post.any (workerPanicked rs env) = false := by
      rw [List.any_eq_false]
      intro f hf
      simp [hpost f hf]
    simp [check_solutions, hjoin, hany]
  · show "Panic while trying to run the solution of the exericse " ++ n ≠
      "Running the solution of the exercise " ++ (n ++ " failed with the error above")
    exact append_ne_of_head _ _ _ _ (by decide) (by decide)

/-- C9 witness: in the worlds where `vars1`'s solution panics
respectively fails to run, the theorem yields the two distinct failing
diagnostics. -/
theorem c9_solution_panic_distinct_witness :
    check_solutions true envPanic { formatVersion := 1, exercises := [eIntro] ++ eVars :: [] } =
      .error (.solutionPanicked eVars.name)
    ∧ check_solutions true envRunFail
        { formatVersion := 1, exercises := [eIntro] ++ eVars :: [] } =
      .error (.solutionRunFailed eVars.name "boom") :=
  ⟨(c9_solution_panic_distinct envPanic eVars (by decide)).1 true 1 [eIntro] []
      (by decide) (by decide) (by decide),
   (c9_solution_panic_distinct envRunFail eVars (by decide)).2.1 true 1 [eIntro] [] "boom"
      (by decide) (by decide) (by decide)⟩

/-! ## Directory shape: spec-side predicate and traversal lemmas -/

/-- Follows the spec's words: a second-level entry is acceptable iff it
is a file (not a directory, not a failed entry) named `README.md` or
whose path belongs to the legitimate set. -/
def subEntryOk (dirPath : String) (allowed : List String) : EntryRes → Bool
  | .readErr => false
  | .ok _ none => false
  | .ok _ (some false) => false
  | .ok fileName (some true) =>
    fileName == "README.md" || allowed.contains (entryPath dirPath fileName)

/-- Follows the spec's words: a root entry is acceptable iff it is a file
named `README.md`, a file whose path belongs to the legitimate set, or a
first-level subdirectory whose own entries all satisfy the file rule. -/
def rootEntryOk (env : Env) (dir : String) (allowed : List String) : EntryRes → Bool
  | .readErr => false
  | .ok _ none => false
  | .ok fileName (some true) =>
    fileName == "README.md" || allowed.contains (entryPath dir fileName)
  | .ok fileName (some false) =>
    match env.readDir (entryPath dir fileName) with
    | none => false
    | some subEntries => subEntries.all (subEntryOk (entryPath dir fileName) allowed)

/-- Follows the spec's words: the directory shape the validator accepts. -/
def specShapeOk (env : Env) (dir : String) (allowed : List String) : Bool :=
  match env.readDir dir with
  | none => false
  | some entries => entries.all (rootEntryOk env dir allowed)

/-- The inner loop accepts exactly the lists of acceptable second-level
entries. -/
theorem checkSubEntries_ok_iff (rootDir dirPath : String) (allowed : List String)
    (l : List EntryRes) :
    checkSubEntries rootDir dirPath allowed l = .ok () ↔
      l.all (subEntryOk dirPath allowed) = true := by
  induction l with
  | nil => simp [checkSubEntries]
  | cons x t ih =>
    cases x with
    | readErr => simp [checkSubEntries, subEntryOk]
    | ok fileName isFile =>
      rcases isFile with _ | b
      · simp [checkSubEntries, subEntryOk]
      · cases b
        · simp [checkSubEntries, subEntryOk]
        · by_cases hr : fileName = "README.md"
          · simp [checkSubEntries, subEntryOk, hr, ih]
          · by_cases ha : entryPath dirPath fileName ∈ allowed <;>
              simp [checkSubEntries, subEntryOk, hr, ha, ih]

/-- The outer loop accepts exactly the lists of acceptable root
entries. -/
theorem checkRootEntries_ok_iff (env : Env) (dir : String) (allowed : List String)
    (l : List EntryRes) :
    checkRootEntries env dir allowed l = .ok () ↔
      l.all (rootEntryOk env dir allowed) = true := by
  induction l with
  | nil => simp [checkRootEntries]
  | cons x t ih =>
    cases x with
    | readErr => simp [checkRootEntries, rootEntryOk]
    | ok fileName isFile =>
      rcases isFile with _ | b
      · simp [checkRootEntries, rootEntryOk]
      · cases b
        · rcases hs : env.readDir (entryPath dir fileName) with _ | subEntries
          · simp [checkRootEntries, rootEntryOk, hs]
          · rcases hsub : checkSubEntries dir (entryPath dir fileName) allowed subEntries with
              _ | er
            · simp only [checkRootEntries, hs, hsub, List.all_cons, Bool.and_eq_true, ih,
                rootEntryOk]
              rw [← checkSubEntries_ok_iff dir (entryPath dir fileName) allowed subEntries]
              simp [hsub]
            · have : ¬subEntries.all (subEntryOk (entryPath dir fileName) allowed) = true := by
                rw [← checkSubEntries_ok_iff dir (entryPath dir fileName) allowed subEntries]
                simp [hsub]
              simp [checkRootEntries, rootEntryOk, hs, hsub, this]
            · have : ¬subEntries.all (subEntryOk (entryPath dir fileName) allowed) = true := by
                rw [← checkSubEntries_ok_iff dir (entryPath dir fileName) allowed subEntries]
                simp [hsub]
              simp [checkRootEntries, rootEntryOk, hs, hsub, this]
        · by_cases hr : fileName = "README.md"
          · simp [checkRootEntries, rootEntryOk, hr, ih]
          · by_cases ha : entryPath dir fileName ∈ allowed <;>
              simp [checkRootEntries, rootEntryOk, hr, ha, ih]

/-- A prefix of acceptable second-level entries is skipped over. -/
theorem checkSubEntries_skip_ok_front (rootDir dirPath : String) (allowed : List String)
    (pre rest : List EntryRes) (h : ∀ x ∈ pre, subEntryOk dirPath allowed x = true) :
    checkSubEntries rootDir dirPath allowed (pre ++ rest) =
      checkSubEntries rootDir dirPath allowed rest := by
  induction pre with
  | nil => rfl
  | cons x t ih =>
    have hx := h x (by simp)
    have ht : ∀ y ∈ t, subEntryOk dirPath allowed y = true := fun y hy => h y (by simp [hy])
    cases x with
    | readErr => simp [subEntryOk] at hx
    | ok fileName isFile =>
      rcases isFile with _ | b
      · simp [subEntryOk] at hx
      · cases b
        · simp [subEntryOk] at hx
        · simp only [List.cons_append, checkSubEntries]
          by_cases hr : fileName = "README.md"
          · rw [if_pos hr]
            exact ih ht
          · simp only [subEntryOk, Bool.or_eq_true, beq_iff_eq, hr, false_or] at hx
            rw [if_neg hr, if_neg (by simpa using hx)]
            exact ih ht

/-- A prefix of acceptable root entries is skipped over. -/
theorem checkRootEntries_skip_ok_front (env : Env) (dir : String) (allowed : List String)
    (pre rest : List EntryRes) (h : ∀ x ∈ pre, rootEntryOk env dir allowed x = true) :
    checkRootEntries env dir allowed (pre ++ rest) = checkRootEntries env dir allowed rest := by
  induction pre with
  | nil => rfl
  | cons x t ih =>
    have hx := h x (by simp)
    have ht : ∀ y ∈ t, rootEntryOk env dir allowed y = true := fun y hy => h y (by simp [hy])
    cases x with
    | readErr => simp [rootEntryOk] at hx
    | ok fileName isFile =>
      rcases isFile with _ | b
      · simp [rootEntryOk] at hx
      · cases b
        · rcases hs : env.readDir (entryPath dir fileName) with _ | subEntries
          · simp [rootEntryOk, hs] at hx
          · simp only [rootEntryOk, hs] at hx
            have hsub : checkSubEntries dir (entryPath dir fileName) allowed subEntries =
                .ok () :=
              (checkSubEntries_ok_iff dir (entryPath dir fileName) allowed subEntries).mpr hx
            simp only [List.cons_append, checkRootEntries, hs, hsub]
            exact ih ht
        · simp only [List.cons_append, checkRootEntries]
          by_cases hr : fileName = "README.md"
          · rw [if_pos hr]
            exact ih ht
          · simp only [rootEntryOk, Bool.or_eq_true, beq_iff_eq, hr, false_or] at hx
            rw [if_neg hr, if_neg (by simpa using hx)]
            exact ih ht

/-! ## Claim C5 -/

/-- C5: the directory shape validator accepts exactly the roots whose
immediate entries are files named `README.md`, files whose paths belong
to the manifest-derived legitimate set, or first-level subdirectories
whose own entries satisfy the same file rule; any other file at either
level fails it with the unexpected-file diagnostic, and a directory at
the second level fails it with the unexpected-nesting diagnostic (the
first offending entry in iteration order producing the result). -/
theorem c5_directory_shape (env : Env) (dir : String) (allowed : List String) :
    (check_unexpected_files env dir allowed = .ok () ↔ specShapeOk env dir allowed = true)
    ∧ (∀ (pre rest : List EntryRes) (fileName : String),
        env.readDir dir = some (pre ++ .ok fileName (some true) :: rest) →
        (∀ x ∈ pre, rootEntryOk env dir allowed x = true) →
        fileName ≠ "README.md" →
        entryPath dir fileName ∉ allowed →
        check_unexpected_files env dir allowed =
          .error (.unexpectedFile (entryPath dir fileName) dir))
    ∧ (∀ (pre rest spre srest : List EntryRes) (dname sname : String),
        env.readDir dir = some (pre ++ .ok dname (some false) :: rest) →
        (∀ x ∈ pre, rootEntryOk env dir allowed x = true) →
        env.readDir (entryPath dir dname) = some (spre ++ .ok sname (some true) :: srest) →
        (∀ x ∈ spre, subEntryOk (entryPath dir dname) allowed x = true) →
        sname ≠ "README.md" →
        entryPath (entryPath dir dname) sname ∉ allowed →
        check_unexpected_files env dir allowed =
          .error (.unexpectedFile (entryPath (entryPath dir dname) sname) dir))
    ∧ (∀ (pre rest spre srest : List EntryRes) (dname sname : String),
        env.readDir dir = some (pre ++ .ok dname (some false) :: rest) →
        (∀ x ∈ pre, rootEntryOk env dir allowed x = true) →
        env.readDir (entryPath dir dname) = some (spre ++ .ok sname (some false) :: srest) →
        (∀ x ∈ spre, subEntryOk (entryPath dir dname) allowed x = true) →
        check_unexpected_files env dir allowed =
          .error (.unexpectedNesting (entryPath (entryPath dir dname) sname))) := by
  refine ⟨?_, fun pre rest fileName hd hpre hfn hna => ?_,
    fun pre rest spre srest dname sname hd hpre hsd hspre hfn hna => ?_,
    fun pre rest spre srest dname sname hd hpre hsd hspre => ?_⟩
  · rw [check_unexpected_files, specShapeOk]
    rcases env.readDir dir with _ | entries
    · simp
    · exact checkRootEntries_ok_iff env dir allowed entries
  · simp only [check_unexpected_files, hd]
    rw [checkRootEntries_skip_ok_front env dir allowed pre _ hpre]
    simp only [checkRootEntries]
    rw [if_neg hfn, if_pos (by simpa using hna)]
  · simp only [check_unexpected_files, hd]
    rw [checkRootEntries_skip_ok_front env dir allowed pre _ hpre]
    simp only [checkRootEntries, hsd]
    rw [checkSubEntries_skip_ok_front dir (entryPath dir dname) allowed spre _ hspre]
    simp only [checkSubEntries]
    rw [if_neg hfn, if_pos (by simpa using hna)]
  · simp only [check_unexpected_files, hd]
    rw [checkRootEntries_skip_ok_front env dir allowed pre _ hpre]
    simp only [checkRootEntries, hsd]
    rw [checkSubEntries_skip_ok_front dir (entryPath dir dname) allowed spre _ hspre]
    simp only [checkSubEntries]

/-- The manifest-derived legitimate exercise paths of the concrete
world. -/
def allowedGood : List String := ["exercises/intro1.rs", "exercises/vars/vars1.rs"]

/-- The all-good world with one untracked file in the exercises root. -/
def envBadFile : Env :=
  { envGood with readDir := fun d =>
      if d = "exercises" then some [.ok "README.md" (some true), .ok "junk.txt" (some true)]
      else envGood.readDir d }

/-- The all-good world with a second level of directory nesting. -/
def envNested : Env :=
  { envGood with readDir := fun d =>
      if d = "exercises" then some [.ok "vars" (some false)]
      else if d = "exercises/vars" then some [.ok "inner" (some false)]
      else envGood.readDir d }

/-- The all-good world where one entry's file-type query fails. -/
def envFtErr : Env :=
  { envGood with readDir := fun d =>
      if d = "exercises" then some [.ok "README.md" (some true), .ok "weird" none]
      else envGood.readDir d }

/-- C5 witness: adding the untracked `junk.txt` fails with the
unexpected-file diagnostic, and a directory nested at the second level
fails with the unexpected-nesting diagnostic. -/
theorem c5_directory_shape_witness :
    check_unexpected_files envBadFile "exercises" allowedGood =
      .error (.unexpectedFile "exercises/junk.txt" "exercises")
    ∧ check_unexpected_files envNested "exercises" allowedGood =
      .error (.unexpectedNesting "exercises/vars/inner") :=
  ⟨(c5_directory_shape envBadFile "exercises" allowedGood).2.1
      [.ok "README.md" (some true)] [] "junk.txt" (by decide) (by decide) (by decide)
      (by decide),
   (c5_directory_shape envNested "exercises" allowedGood).2.2.2
      [] [] [] [] "vars" "inner" (by decide) (by decide) (by decide) (by decide)⟩

/-! ## Claim C10 -/

/-- C10: the directory shape validator `unwrap`s each entry's file-type
query, at both nesting levels: an entry whose query fails makes the
function panic, whereas a directory that cannot be opened at all yields
the ordinary I/O-error result. -/
theorem c10_file_type_query_panics (env : Env) (dir : String) (allowed : List String) :
    (∀ (pre rest : List EntryRes) (fileName : String),
        env.readDir dir = some (pre ++ .ok fileName none :: rest) →
        (∀ x ∈ pre, rootEntryOk env dir allowed x = true) →
        check_unexpected_files env dir allowed = .panic)
    ∧ (∀ (pre rest spre srest : List EntryRes) (dname sname : String),
        env.readDir dir = some (pre ++ .ok dname (some false) :: rest) →
        (∀ x ∈ pre, rootEntryOk env dir allowed x = true) →
        env.readDir (entryPath dir dname) = some (spre ++ .ok sname none :: srest) →
        (∀ x ∈ spre, subEntryOk (entryPath dir dname) allowed x = true) →
        check_unexpected_files env dir allowed = .panic)
    ∧ (env.readDir dir = none →
        check_unexpected_files env dir allowed = .error (.failedToOpenDir dir)) := by
  refine ⟨fun pre rest fileName hd hpre => ?_,
    fun pre rest spre srest dname sname hd hpre hsd hspre => ?_, fun hd => ?_⟩
  · simp only [check_unexpected_files, hd]
    rw [checkRootEntries_skip_ok_front env dir allowed pre _ hpre]
    simp only [checkRootEntries]
  · simp only [check_unexpected_files, hd]
    rw [checkRootEntries_skip_ok_front env dir allowed pre _ hpre]
    simp only [checkRootEntries, hsd]
    rw [checkSubEntries_skip_ok_front dir (entryPath dir dname) allowed spre _ hspre]
    simp only [checkSubEntries]
  · simp only [check_unexpected_files, hd]

/-- C10 witness: the entry `weird` with a failing file-type query makes
the validator panic, while an unopenable root directory yields the
I/O-error result. -/
theorem c10_file_type_query_panics_witness :
    check_unexpected_files envFtErr "exercises" allowedGood = .panic
    ∧ check_unexpected_files envGood "books" allowedGood =
      .error (.failedToOpenDir "books") :=
  ⟨(c10_file_type_query_panics envFtErr "exercises" allowedGood).1
      [.ok "README.md" (some true)] [] "weird" (by decide) (by decide),
   (c10_file_type_query_panics envGood "books" allowedGood).2.2 (by decide)⟩

/-! ## Naming and content validation: per-record predicates and lemmas -/

/-- All naming checks of one record pass: non-empty name of allowed
characters, a dir (when present) likewise, and a hint that is non-empty
after trimming. -/
def recordNamingOk (e : ExerciseInfo) : Bool :=
  decide (e.name ≠ "") && (forbidden_char e.name).isNone &&
    (match e.dir with
     | some d => decide (d ≠ "") && (forbidden_char d).isNone
     | none => true) &&
    decide (rustTrim e.hint ≠ "")

/-- All content checks of one record's file pass: readable, contains the
entry-point and guidance markers, and contains no test marker unless the
record is flagged `test`. -/
def recordContentOk (env : Env) (e : ExerciseInfo) : Bool :=
  match env.readFile e.path with
  | .ok fileBuf =>
    strContains fileBuf "fn main()" && strContains fileBuf "// TODO" &&
      (e.test || !strContains fileBuf "#[test]")
  | _ => false

/-- Unpacking `recordNamingOk`. -/
theorem recordNamingOk_parts (e : ExerciseInfo) (h : recordNamingOk e = true) :
    ¬(e.name = "") ∧ forbidden_char e.name = none ∧ checkDirOfRecord e.name e.dir = .ok ()
    ∧ ¬(rustTrim e.hint = "") := by
  simp only [recordNamingOk, Bool.and_eq_true, decide_eq_true_eq,
    Option.isNone_iff_eq_none] at h
  obtain ⟨⟨⟨h1, h2⟩, hd⟩, h4⟩ := h
  refine ⟨h1, h2, ?_, h4⟩
  cases hdir : e.dir with
  | none => rfl
  | some d =>
    rw [hdir] at hd
    simp only [Bool.and_eq_true, decide_eq_true_eq, Option.isNone_iff_eq_none] at hd
    simp [checkDirOfRecord, hd.1, hd.2]

/-- A record whose content checks pass sails through `checkRecordFile`. -/
theorem checkRecordFile_ok_of_content (env : Env) (e : ExerciseInfo)
    (h : recordContentOk env e = true) : checkRecordFile env e e.path = .ok () := by
  rw [recordContentOk] at h
  rcases hf : env.readFile e.path with buf | _ | _ <;> rw [hf] at h
  · simp only [Bool.and_eq_true, Bool.or_eq_true, Bool.not_eq_true'] at h
    obtain ⟨⟨hm, ht⟩, htest⟩ := h
    rcases htest with hT | hF
    · simp [checkRecordFile, hf, hm, ht, hT]
    · simp [checkRecordFile, hf, hm, ht, hF]
  · cases h
  · cases h

/-- One fully valid, non-duplicate record is consumed by the loop,
pushing its name and path onto the accumulators. -/
theorem checkInfoAux_step_ok (env : Env) (e : ExerciseInfo) (t : List ExerciseInfo)
    (names paths : List String) (hn : recordNamingOk e = true)
    (hc : recordContentOk env e = true) (hmem : e.name ∉ names) :
    checkInfoFileExercisesAux env names paths (e :: t) =
      checkInfoFileExercisesAux env (e.name :: names) (paths ++ [e.path]) t := by
  obtain ⟨h1, h2, h3, h4⟩ := recordNamingOk_parts e hn
  have h6 : checkRecordFile env e e.path = .ok () := checkRecordFile_ok_of_content env e hc
  simp [checkInfoFileExercisesAux, h1, h2, h3, h4, hmem, h6]

/-- A prefix of fully valid records with fresh names is consumed by the
loop, pushing its names (reversed) and paths onto the accumulators. -/
theorem checkInfoAux_skip_ok_front (env : Env) (pre rest : List ExerciseInfo) :
    ∀ (names paths : List String),
      (∀ e ∈ pre, recordNamingOk e = true ∧ recordContentOk env e = true) →
      (pre.map (fun e => e.name)).Nodup →
      (∀ e ∈ pre, e.name ∉ names) →
      checkInfoFileExercisesAux env names paths (pre ++ rest) =
        checkInfoFileExercisesAux env ((pre.map (fun e => e.name)).reverse ++ names)
          (paths ++ pre.map (fun e => e.path)) rest := by
  induction pre with
  | nil => intro names paths _ _ _; simp
  | cons e t ih =>
    intro names paths h hnodup hdisj
    have he := h e (by simp)
    have hnodup' : (e.name :: t.map (fun x => x.name)).Nodup := by
      rw [List.map_cons] at hnodup; exact hnodup
    have hhead := (List.nodup_cons.mp hnodup').1
    have htail := (List.nodup_cons.mp hnodup').2
    rw [List.cons_append, checkInfoAux_step_ok env e (t ++ rest) names paths he.1 he.2
      (hdisj e (by simp))]
    rw [ih (e.name :: names) (paths ++ [e.path]) (fun f hf => h f (by simp [hf])) htail ?_]
    · simp
    · intro f hf
      simp only [List.mem_cons, not_or]
      have hne : f.name ≠ e.name := by
        intro hfe
        exact hhead (by simpa [hfe] using List.mem_map_of_mem (fun x => x.name) hf)
      exact ⟨hne, hdisj f (by simp [hf])⟩

/-- A successful pass implies all names are fresh and mutually
distinct. -/
theorem checkInfoAux_ok_names (env : Env) :
    ∀ (l : List ExerciseInfo) (names paths r : List String),
      checkInfoFileExercisesAux env names paths l = .ok r →
      (l.map (fun e => e.name)).Nodup ∧ ∀ e ∈ l, e.name ∉ names := by
  intro l
  induction l with
  | nil => intro names paths r _; simp
  | cons e t ih =>
    intro names paths r h
    rw [checkInfoFileExercisesAux] at h
    split at h
    · cases h
    · split at h
      · cases h
      · split at h
        · cases h
        · cases h
        · split at h
          · cases h
          · split at h
            · cases h
            · rename_i hdup
              split at h
              · cases h
              · cases h
              · obtain ⟨hnd, hfresh⟩ := ih (e.name :: names) _ r h
                have hmem : e.name ∉ names := by simpa using hdup
                have hnotin : e.name ∉ t.map (fun x => x.name) := by
                  intro hin
                  obtain ⟨f, hf, hfe⟩ := List.mem_map.mp hin
                  have h2 := hfresh f hf
                  rw [hfe] at h2
                  exact h2 (List.mem_cons_self _ _)
                constructor
                · rw [List.map_cons]
                  exact List.nodup_cons.mpr ⟨hnotin, hnd⟩
                · intro f hf
                  rcases List.mem_cons.mp hf with rfl | hft
                  · exact hmem
                  · have h2 := hfresh f hft
                    simp only [List.mem_cons, not_or] at h2
                    exact h2.2

/-! ## Claim C6 -/

/-- C6: a manifest whose records all pass the naming checks and whose
files all contain the entry-point marker (`fn main()`) and the guidance
marker (`// TODO`), with no `test = false` record containing the test
marker (`#[test]`), passes the validation and yields all paths; if the
content condition is violated for some record (all earlier records being
valid), validation fails with a diagnostic naming exactly that record's
file. -/
theorem c6_content_validation (env : Env) (infoFile : InfoFile) :
    ((∀ e ∈ infoFile.exercises, recordNamingOk e = true ∧ recordContentOk env e = true) →
      (infoFile.exercises.map (fun e => e.name)).Nodup →
      check_info_file_exercises env infoFile =
        .ok (infoFile.exercises.map (fun e => e.path)))
    ∧ (∀ (pre post : List ExerciseInfo) (e : ExerciseInfo),
        infoFile.exercises = pre ++ e :: post →
        (∀ f ∈ pre, recordNamingOk f = true ∧ recordContentOk env f = true) →
        (pre.map (fun f => f.name)).Nodup →
        recordNamingOk e = true →
        e.name ∉ pre.map (fun f => f.name) →
        recordContentOk env e = false →
        (∃ fileBuf, env.readFile e.path = FileRead.ok fileBuf) →
        (check_info_file_exercises env infoFile = .error (.missingMainFunction e.path)
         ∨ check_info_file_exercises env infoFile = .error (.missingTodoComment e.path)
         ∨ check_info_file_exercises env infoFile =
            .error (.unexpectedTests e.path e.name))) := by
  constructor
  · intro hall hnodup
    rw [check_info_file_exercises]
    have hskip := checkInfoAux_skip_ok_front env infoFile.exercises [] [] [] hall hnodup
      (by simp)
    simpa [checkInfoFileExercisesAux] using hskip
  · intro pre post e hsplit hpre hnodup hnam hfresh hcontent hread
    obtain ⟨fileBuf, hf⟩ := hread
    obtain ⟨h1, h2, h3, h4⟩ := recordNamingOk_parts e hnam
    rw [check_info_file_exercises, hsplit,
      checkInfoAux_skip_ok_front env pre (e :: post) [] [] hpre hnodup (by simp)]
    rw [recordContentOk, hf] at hcontent
    by_cases hm : strContains fileBuf "fn main()" = true
    · by_cases ht : strContains fileBuf "// TODO" = true
      · simp only [hm, ht, Bool.true_and] at hcontent
        have htest : e.test = false ∧ strContains fileBuf "#[test]" = true := by
          rcases Bool.eq_false_or_eq_true e.test with hT | hT
          · simp [hT] at hcontent
          · simp only [hT, Bool.false_or, Bool.not_eq_false'] at hcontent
            exact ⟨hT, hcontent⟩
        refine .inr (.inr ?_)
        simp [checkInfoFileExercisesAux, h1, h2, h3, h4, hfresh, checkRecordFile, hf, hm, ht,
          htest.1, htest.2]
      · refine .inr (.inl ?_)
        simp [checkInfoFileExercisesAux, h1, h2, h3, h4, hfresh, checkRecordFile, hf, hm, ht]
    · refine .inl ?_
      simp [checkInfoFileExercisesAux, h1, h2, h3, h4, hfresh, checkRecordFile, hf, hm]

/-- The all-good world where `intro1`'s file lost its `// TODO`
comment. -/
def envNoTodo : Env :=
  { envGood with readFile := fun p =>
      if p = "exercises/intro1.rs" then .ok "fn main() " else envGood.readFile p }

/-- C6 witness: the good world passes with both paths; removing the
guidance marker from `intro1`'s file makes validation fail naming that
file. -/
theorem c6_content_validation_witness :
    check_info_file_exercises envGood infoGood =
      .ok ["exercises/intro1.rs", "exercises/vars/vars1.rs"]
    ∧ (check_info_file_exercises envNoTodo infoGood =
        .error (.missingMainFunction "exercises/intro1.rs")
       ∨ check_info_file_exercises envNoTodo infoGood =
        .error (.missingTodoComment "exercises/intro1.rs")
       ∨ check_info_file_exercises envNoTodo infoGood =
        .error (.unexpectedTests "exercises/intro1.rs" "intro1")) :=
  ⟨(c6_content_validation envGood infoGood).1 (by decide) (by decide),
   (c6_content_validation envNoTodo infoGood).2 [] [eVars] eIntro (by decide) (by decide)
      (by decide) (by decide) (by decide) (by decide) ⟨"fn main() ", by decide⟩⟩

/-! ## Claim C8 -/

/-- A manifest with two records of the same name (`intro1` appearing
again, this time as a subdirectory exercise). -/
def eVarsDup : ExerciseInfo :=
  { name := "intro1", dir := some "vars", test := true, skipCheckUnsolved := false,
    hint := "Declare it" }

def infoDup : InfoFile := { formatVersion := 1, exercises := [eIntro, eVarsDup] }

/-- C8: the naming validator checks, per record, in the order name
emptiness → name characters → dir emptiness → dir characters → hint
emptiness (after trimming) → duplicate name, and the first violation
aborts the whole pass with that violation's diagnostic; moreover a
successful pass implies all names are pairwise distinct (exact,
case-sensitive comparison), so a name equal to any earlier record's name
is always rejected wherever the two records sit. -/
theorem c8_naming_check_order (env : Env) (infoFile : InfoFile) :
    (∀ paths, check_info_file_exercises env infoFile = .ok paths →
      (infoFile.exercises.map (fun e => e.name)).Nodup)
    ∧ (∀ (pre post : List ExerciseInfo) (e : ExerciseInfo),
        infoFile.exercises = pre ++ e :: post →
        (∀ f ∈ pre, recordNamingOk f = true ∧ recordContentOk env f = true) →
        (pre.map (fun f => f.name)).Nodup →
        ((e.name = "" →
           check_info_file_exercises env infoFile = .error .emptyExerciseName)
         ∧ (∀ c, forbidden_char e.name = some c →
             check_info_file_exercises env infoFile =
               .error (.forbiddenCharInName c e.name))
         ∧ (∀ d, e.name ≠ "" → forbidden_char e.name = none → e.dir = some d → d = "" →
             check_info_file_exercises env infoFile = .error (.emptyDir e.name))
         ∧ (∀ d c, e.name ≠ "" → forbidden_char e.name = none → e.dir = some d → d ≠ "" →
             forbidden_char d = some c →
             check_info_file_exercises env infoFile = .error (.forbiddenCharInDir c d))
         ∧ (e.name ≠ "" → forbidden_char e.name = none →
             checkDirOfRecord e.name e.dir = .ok () → rustTrim e.hint = "" →
             check_info_file_exercises env infoFile = .error (.emptyHint e.name))
         ∧ (e.name ≠ "" → forbidden_char e.name = none →
             checkDirOfRecord e.name e.dir = .ok () → rustTrim e.hint ≠ "" →
             e.name ∈ pre.map (fun f => f.name) →
             check_info_file_exercises env infoFile =
               .error (.duplicateName e.name)))) := by
  constructor
  · intro paths h
    exact (checkInfoAux_ok_names env infoFile.exercises [] [] paths h).1
  · intro pre post e hsplit hpre hnodup
    have hstep : check_info_file_exercises env infoFile =
        checkInfoFileExercisesAux env ((pre.map (fun f => f.name)).reverse ++ [])
          ([] ++ pre.map (fun f => f.path)) (e :: post) := by
      rw [check_info_file_exercises, hsplit,
        checkInfoAux_skip_ok_front env pre (e :: post) [] [] hpre hnodup (by simp)]
    refine ⟨fun hname => ?_, fun c hfc => ?_, fun d hne hfc hdir hd0 => ?_,
      fun d c hne hfc hdir hd0 hfcd => ?_, fun hne hfc hdirok hhint => ?_,
      fun hne hfc hdirok hhint hdup => ?_⟩
    · rw [hstep]
      simp [checkInfoFileExercisesAux, hname]
    · rw [hstep]
      have hne : ¬(e.name = "") := by
        intro h0
        rw [h0] at hfc
        cases hfc
      simp [checkInfoFileExercisesAux, hne, hfc]
    · rw [hstep]
      simp [checkInfoFileExercisesAux, hne, hfc, checkDirOfRecord, hdir, hd0]
    · rw [hstep]
      simp [checkInfoFileExercisesAux, hne, hfc, checkDirOfRecord, hdir, hd0, hfcd]
    · rw [hstep]
      simp [checkInfoFileExercisesAux, hne, hfc, hdirok, hhint]
    · rw [hstep]
      simp [checkInfoFileExercisesAux, hne, hfc, hdirok, hhint, hdup]

/-- C8 witness: the good manifest's names are pairwise distinct via a
successful pass, and duplicating `intro1` (in an otherwise valid record)
fails the pass with the duplicate-name diagnostic. -/
theorem c8_naming_check_order_witness :
    (infoGood.exercises.map (fun e => e.name)).Nodup
    ∧ check_info_file_exercises envGood infoDup = .error (.duplicateName "intro1") :=
  ⟨(c8_naming_check_order envGood infoGood).1 ["exercises/intro1.rs", "exercises/vars/vars1.rs"]
      (by decide),
   ((c8_naming_check_order envGood infoDup).2 [eIntro] [] eVarsDup (by decide) (by decide)
      (by decide)).2.2.2.2.2 (by decide) (by decide) (by decide) (by decide) (by decide)⟩

/-! ## Claim C2 -/

/-- Sequencing succeeds iff the first step yields a value on which the
second succeeds. -/
theorem andThen_eq_ok {α β : Type} (o : Outcome α) (f : α → Outcome β) (b : β) :
    o.andThen f = .ok b ↔ ∃ a, o = .ok a ∧ f a = .ok b := by
  cases o <;> simp [Outcome.andThen]

/-- Specialization of `andThen_eq_ok` to unit-valued first steps. -/
theorem andThen_unit_eq_ok {β : Type} (o : Outcome Unit) (f : Unit → Outcome β) (b : β) :
    o.andThen f = .ok b ↔ o = .ok () ∧ f () = .ok b := by
  cases o with
  | ok a => cases a; simp [Outcome.andThen]
  | error e => simp [Outcome.andThen]
  | panic => simp [Outcome.andThen]

/-- C2: with the command-runner construction (an external collaborator
step between phases 2 and 3, outside the spec's phase list) succeeding,
`check` coincides with the spec's seven-phase fail-fast orchestration —
manifest parse, build-descriptor check, format-version check, naming +
content validation, directory shape, unsolved-state verification,
solution verification, in that order, the first failing phase's
diagnostic becoming the overall result with no later phase consulted —
so the overall result is success exactly when every phase passes.  The
format-version phase passes exactly on equality with the supported
version, failing as too-old below it and too-new above it, and a parse
failure is fatal immediately. -/
theorem c2_orchestration (requireSolutions : Bool) (env : Env)
    (hr : env.cmdRunnerBuild = .ok ()) :
    check requireSolutions env = specOrchestration requireSolutions env
    ∧ (∀ infoFile, env.parseInfoFile = .ok infoFile →
        (check requireSolutions env = .ok () ↔
          cargoTomlPhase env infoFile.exercises = .ok ()
          ∧ checkFormatVersion infoFile = .ok ()
          ∧ (∃ infoFilePaths,
              check_info_file_exercises env infoFile = .ok infoFilePaths
              ∧ check_unexpected_files env "exercises" infoFilePaths = .ok ()
              ∧ check_exercises_unsolved env infoFile = .ok ()
              ∧ check_solutions requireSolutions env infoFile = .ok ())))
    ∧ (∀ msg, env.parseInfoFile = .error msg →
        check requireSolutions env = .error (.parseError msg))
    ∧ (∀ infoFile : InfoFile, checkFormatVersion infoFile = .ok () ↔
        infoFile.formatVersion = CURRENT_FORMAT_VERSION)
    ∧ (∀ infoFile : InfoFile, infoFile.formatVersion < CURRENT_FORMAT_VERSION →
        checkFormatVersion infoFile = .error .formatVersionTooOld)
    ∧ (∀ infoFile : InfoFile, CURRENT_FORMAT_VERSION < infoFile.formatVersion →
        checkFormatVersion infoFile = .error .formatVersionTooNew) := by
  have heq : check requireSolutions env = specOrchestration requireSolutions env := by
    unfold check specOrchestration parsePhase check_exercises
    cases hp : env.parseInfoFile with
    | error msg => rfl
    | ok infoFile =>
      simp only [hr, Outcome.andThen]
      cases hc : cargoTomlPhase env infoFile.exercises <;> try rfl
      cases hv : checkFormatVersion infoFile <;> try rfl
      cases hi : check_info_file_exercises env infoFile <;> try rfl
      rename_i infoFilePaths
      cases hs : check_unexpected_files env "exercises" infoFilePaths <;>
        cases hu : check_exercises_unsolved env infoFile <;>
          simp [hs, hu]
  refine ⟨heq, fun infoFile hp => ?_, fun msg hp => ?_, fun infoFile => ?_,
    fun infoFile h => ?_, fun infoFile h => ?_⟩
  · rw [heq]
    unfold specOrchestration parsePhase
    rw [hp]
    simp only [andThen_eq_ok, andThen_unit_eq_ok, Outcome.ok.injEq, exists_eq_left,
      exists_eq_left']
    constructor
    · rintro ⟨a1, h1, a2, h2, paths, h3, a4, h4, a5, h5, h6⟩
      cases a1; cases a2; cases a4; cases a5
      exact ⟨h1, h2, paths, h3, h4, h5, h6⟩
    · rintro ⟨h1, h2, paths, h3, h4, h5, h6⟩
      exact ⟨(), h1, (), h2, paths, h3, (), h4, (), h5, h6⟩
  · rw [heq]
    unfold specOrchestration parsePhase
    rw [hp]
    rfl
  · rw [checkFormatVersion]
    rcases Nat.lt_trichotomy infoFile.formatVersion CURRENT_FORMAT_VERSION with h | h | h
    · rw [Nat.compare_eq_lt.mpr h]
      simp [Nat.ne_of_lt h]
    · rw [h, Nat.compare_eq_eq.mpr rfl]
      simp [h]
    · rw [Nat.compare_eq_gt.mpr h]
      simp [Nat.ne_of_gt h]
  · rw [checkFormatVersion, Nat.compare_eq_lt.mpr h]
  · rw [checkFormatVersion, Nat.compare_eq_gt.mpr h]

/-- C2 witness: in the all-good world the runner builds, `check` agrees
with the orchestration and succeeds, with every phase passing. -/
theorem c2_orchestration_witness :
    check true envGood = specOrchestration true envGood
    ∧ (check true envGood = .ok () ↔
        cargoTomlPhase envGood infoGood.exercises = .ok ()
        ∧ checkFormatVersion infoGood = .ok ()
        ∧ (∃ infoFilePaths,
            check_info_file_exercises envGood infoGood = .ok infoFilePaths
            ∧ check_unexpected_files envGood "exercises" infoFilePaths = .ok ()
            ∧ check_exercises_unsolved envGood infoGood = .ok ()
            ∧ check_solutions true envGood infoGood = .ok ())) :=
  ⟨(c2_orchestration true envGood rfl).1,
   (c2_orchestration true envGood rfl).2.1 infoGood rfl⟩

end Rustlings
